import Mathlib

/-!
A shallow embedding of `src/index.js` of passport-cas: the CAS ticket
validation strategies (CAS1.0 line protocol, CAS3.0 XML, SAML/SOAP),
the `verified` completion-callback outcome mapping, the transport event
handling, the service-URL canonicalization and the strategy constructor.
External collaborators (the xml2js XML parser, the HTTP client) are
modelled at their interfaces: a parsed XML document is a JavaScript
value (`JSValue`), a failed parse is `none`; transport activity is a
list of events delivered to the registered handlers.
-/

namespace PassportCas

/-- JavaScript values as produced by xml2js (with `explicitArray: false`,
normalized and prefix-stripped tag names) and handled by the strategy:
`undefined`, `null`, strings, arrays, plain objects (ordered field lists)
and Error objects. -/
inductive JSValue where
  | undef
  | null
  | str (s : String)
  | arr (elems : List JSValue)
  | obj (fields : List (String × JSValue))
  | errObj (msg : String)

/-- JavaScript property access `v[k]`: throws a TypeError (`Except.error`)
on `undefined`/`null`, returns the field of an object (or `undefined`
when absent), and `undefined` for the names read by this code on strings,
arrays and Error objects. -/
def JSValue.get : JSValue → String → Except Unit JSValue
  | .undef, _ => .error ()
  | .null, _ => .error ()
  | .str _, _ => .ok .undef
  | .arr _, _ => .ok .undef
  | .errObj _, _ => .ok .undef
  | .obj fs, k => .ok ((fs.lookup k).getD .undef)

/-- JavaScript truthiness of the modelled values. -/
def truthy : JSValue → Bool
  | .undef => false
  | .null => false
  | .str s => s != ""
  | .arr _ => true
  | .obj _ => true
  | .errObj _ => true

/-- String conversion of an array element during `Array.prototype.toString`
(JavaScript maps `undefined`/`null` elements to the empty string there).
Nested structures are rendered one level deep; the xml2js attribute values
reaching string conversion in this code are flat strings. -/
def jsStrElem : JSValue → String
  | .undef => ""
  | .null => ""
  | .str s => s
  | .errObj m => "Error: " ++ m
  | .obj _ => "[object Object]"
  | .arr _ => ""

/-- JavaScript string conversion, as applied by the `+` concatenation in
`'Authentication failed ' + ...code` (src/index.js:106). -/
def jsStr : JSValue → String
  | .undef => "undefined"
  | .null => "null"
  | .str s => s
  | .errObj m => "Error: " ++ m
  | .obj _ => "[object Object]"
  | .arr vs => String.intercalate "," (vs.map jsStrElem)

/-- The triple a caller-supplied verify callback passes to its completion
callback: `callback(err, user, info)`. Arguments left off by the caller
are `undefined`. -/
structure VerifyResult where
  err : JSValue
  user : JSValue
  info : JSValue

/-- The terminal outcome channels of a passport strategy: `self.error`,
`self.fail`, `self.success` (src/index.js:172-182, 211, 224). -/
inductive Signal where
  | error (err : JSValue)
  | fail (info : JSValue)
  | success (user info : JSValue)

def Signal.isError : Signal → Bool
  | .error _ => true
  | _ => false

def Signal.isFail : Signal → Bool
  | .fail _ => true
  | _ => false

def Signal.isSuccess : Signal → Bool
  | .success _ _ => true
  | _ => false

/-- `authenticate`'s `verified` completion callback (src/index.js:172-182):
a truthy `err` signals `error(err)`, a falsy `user` signals `fail(info)`,
otherwise `success(user, info)`. -/
def verifiedCb (err user info : JSValue) : Signal :=
  if truthy err then .error err
  else if !(truthy user) then .fail info
  else .success user info

/-- JavaScript `String.prototype.split` on a single separator character. -/
def splitAll (c : Char) : List Char → List (List Char)
  | [] => [[]]
  | x :: xs =>
    match splitAll c xs with
    | [] => [[]]
    | h :: t => if x = c then [] :: h :: t else (x :: h) :: t

/-- What the CAS1.0 `_validate` (src/index.js:46-61) does with the
response body before any callback is invoked: first line `no` is an
explicit rejection, first line `yes` with a second line available hands
line 1 to the verify callback, anything else is a bad server response. -/
inductive Cas1Result where
  | reject
  | badResponse
  | principal (user : List Char)
deriving DecidableEq

/-- CAS1.0 `_validate` body parsing (src/index.js:46-61): `body.split('\n')`,
then branch on `lines[0]` and `lines.length`. -/
def cas1parse (body : List Char) : Cas1Result :=
  let lines := splitAll '\n' body
  if 1 ≤ lines.length then
    if lines.getD 0 [] = "no".toList then .reject
    else if lines.getD 0 [] = "yes".toList then
      if 2 ≤ lines.length then .principal (lines.getD 1 []) else .badResponse
    else .badResponse
  else .badResponse

/-- CAS1.0 `_validate` -/
def cas1validate (verify : List Char → VerifyResult) (body : List Char) : Signal :=
  match cas1parse body with
  | .reject => verifiedCb (.errObj "Authentication failed") .undef .undef
  | .badResponse => verifiedCb (.errObj "The response from the server was bad") .undef .undef
  | .principal u => let r := verify u; verifiedCb r.err r.user r.info

/-- What the CAS3.0 plain `_validate` (src/index.js:99-122) does with the
parsed body before any callback is invoked. -/
inductive Cas3Outcome where
  | badResponse
  | reject (msg : String)
  | principal (node : JSValue)

/-- The `try` block of the CAS3.0 plain `_validate` (src/index.js:104-117):
unchecked property chains are modelled in the `Except` monad, where a
thrown TypeError is `Except.error`. -/
def cas3extract (result : JSValue) : Except Unit Cas3Outcome := do
  let sr ← result.get "serviceresponse"
  let af ← sr.get "authenticationfailure"
  if truthy af then
    let attrs ← af.get "$"
    let code ← attrs.get "code"
    pure (.reject ("Authentication failed " ++ jsStr code))
  else
    let success ← sr.get "authenticationsuccess"
    if truthy success then
      pure (.principal success)
    else
      pure (.reject "Authentication failed")

/-- CAS3.0 plain `_validate` over the xml2js result: `none` is a parse
error (`parseString` reported `err`), `some result` the parsed document;
the surrounding `catch` (src/index.js:118-120) downgrades any throw to
the generic rejection. -/
def cas3parse : Option JSValue → Cas3Outcome
  | none => .badResponse
  | some result =>
    match cas3extract result with
    | .ok o => o
    | .error _ => .reject "Authentication failed"

/-- CAS3.0 plain `_validate`, composed with `verified`. -/
def cas3validate (verify : JSValue → VerifyResult) (pr : Option JSValue) : Signal :=
  match cas3parse pr with
  | .badResponse => verifiedCb (.errObj "The response from the server was bad") .undef .undef
  | .reject m => verifiedCb (.errObj m) .undef .undef
  | .principal v => let r := verify v; verifiedCb r.err r.user r.info

/-- `attributeName.toLowerCase()`: a method only strings have; any other
receiver throws. -/
def jsToLowerKey : JSValue → Except Unit String
  | .str s => .ok (String.mk (s.toList.map Char.toLower))
  | _ => .error ()

/-- `value.match(/Success$/)`: a method only strings have; the regex is an
end-anchored literal, so the match is truthy exactly when the string ends
with `Success`. -/
def jsMatchSuccess : JSValue → Except Unit Bool
  | .str s => .ok ("Success".toList.isSuffixOf s.toList)
  | _ => .error ()

/-- JavaScript object property assignment `q[k] = v` on an ordered field
list: overwrite in place when the key exists, append otherwise. -/
def setKey {α β : Type} [DecidableEq α] (q : List (α × β)) (k : α) (v : β) :
    List (α × β) :=
  if q.any (fun kv => decide (kv.1 = k)) then
    q.map (fun kv => if kv.1 = k then (k, v) else kv)
  else q ++ [(k, v)]

/-- The element sequence underscore's `_.each` iterates: arrays by element,
array-likes (strings) by index, other objects by own-property value,
`undefined`/`null` not at all. -/
def underscoreValues : JSValue → List JSValue
  | .arr vs => vs
  | .obj fs => fs.map Prod.snd
  | .str s => s.toList.map (fun c => .str (String.mk [c]))
  | _ => []

/-- One iteration of the SAML attribute loop (src/index.js:77-79):
`attributes[attribute['$'].AttributeName.toLowerCase()] = attribute.attributevalue`. -/
def samlAttrStep (acc : List (String × JSValue)) (attrNode : JSValue) :
    Except Unit (List (String × JSValue)) := do
  let d ← attrNode.get "$"
  let nm ← d.get "AttributeName"
  let key ← jsToLowerKey nm
  let value ← attrNode.get "attributevalue"
  pure (setKey acc key value)

/-- The `_.each` collection of SAML attributes; a throw inside the callback
propagates out of the loop. -/
def eachAttributes (v : JSValue) : Except Unit (List (String × JSValue)) :=
  (underscoreValues v).foldlM samlAttrStep []

/-- The `try` block of the SAML `_validate` (src/index.js:71-91): structural
extraction of envelope/body/response, the status-code match, and on success
the attribute loop and name identifier. `some (user, attributes)` is the
success payload, `none` the non-matching status code. -/
def samlExtract (result : JSValue) :
    Except Unit (Option (JSValue × List (String × JSValue))) := do
  let env ← result.get "envelope"
  let bdy ← env.get "body"
  let response ← bdy.get "response"
  let status ← response.get "status"
  let sc ← status.get "statuscode"
  let d ← sc.get "$"
  let v ← d.get "Value"
  let success ← jsMatchSuccess v
  if success then
    let assertion ← response.get "assertion"
    let astmt ← assertion.get "attributestatement"
    let attrNode ← astmt.get "attribute"
    let attributes ← eachAttributes attrNode
    let authstmt ← assertion.get "authenticationstatement"
    let subj ← authstmt.get "subject"
    let user ← subj.get "nameidentifier"
    pure (some (user, attributes))
  else
    pure none

/-- What the SAML `_validate` (src/index.js:66-96) does with the parsed
body before any callback is invoked. -/
inductive SamlResult where
  | badResponse
  | authFailed
  | principal (user : JSValue) (attributes : List (String × JSValue))

/-- SAML `_validate` over the xml2js result: `none` is a parse error; the
`catch` (src/index.js:92-94) downgrades any structural throw to the generic
`Authentication failed`. -/
def samlParse : Option JSValue → SamlResult
  | none => .badResponse
  | some r =>
    match samlExtract r with
    | .error _ => .authFailed
    | .ok none => .authFailed
    | .ok (some (u, attrs)) => .principal u attrs

/-- SAML `_validate`, composed with `verified`; the success payload is the
profile object `{user, attributes}` (src/index.js:80-83). -/
def samlValidate (verify : JSValue → VerifyResult) (pr : Option JSValue) : Signal :=
  match samlParse pr with
  | .badResponse => verifiedCb (.errObj "The response from the server was bad") .undef .undef
  | .authFailed => verifiedCb (.errObj "Authentication failed") .undef .undef
  | .principal u attrs =>
    let r := verify (.obj [("user", u), ("attributes", .obj attrs)])
    verifiedCb r.err r.user r.info

/-- Events a validation attempt's transport can deliver to the handlers
registered in `authenticate` (src/index.js:186-191, 211, 224): response
`data` chunks, the response `end`, and a request `error`. -/
inductive TransportEvent where
  | data (chunk : List Char)
  | ended
  | errEvent (msg : String)

/-- JavaScript `a || b` on strings. -/
def jsOrS (v d : String) : String := if v = "" then d else v

/-- Delivery of a list of transport events to the handlers of one
authentication attempt: `data` accumulates the body, `end` runs
`self._validate` on the accumulated body (src/index.js:190), `error` runs
`self.fail(new Error(e.message || 'Unknown error'))` (src/index.js:211,224).
The handlers stay registered, so every further terminal event signals
again: the returned list collects every signal emitted. -/
def runEvents (validate : List Char → Signal) :
    List Char → List TransportEvent → List Signal
  | _, [] => []
  | body, .data c :: rest => runEvents validate (body ++ c) rest
  | body, .ended :: rest => validate body :: runEvents validate body rest
  | body, .errEvent m :: rest =>
      Signal.fail (.errObj (jsOrS m "Unknown error")) :: runEvents validate body rest

/-- Whether an event triggers a registered terminal handler. -/
def TransportEvent.isTerminal : TransportEvent → Bool
  | .data _ => false
  | _ => true

/-- The constructor options (src/index.js:12-33). Absent JavaScript fields
are `none`. -/
structure Options where
  version : Option String
  ssoBaseURL : Option String
  serverBaseURL : Option String
  validateURL : Option String
  serviceURL : Option String
  useSaml : Bool
  passReqToCallback : Bool
deriving DecidableEq

/-- The state a successfully constructed strategy carries. -/
structure StrategyState where
  version : String
  ssoBase : String
  useSaml : Bool
  name : String
  validateUri : String
  passReqToCallback : Bool
deriving DecidableEq

/-- JavaScript `a || b` where `a` is an optional string field. -/
def jsOrOpt (v : Option String) (d : String) : String := jsOrS (v.getD "") d

/-- The `Strategy` constructor (src/index.js:12-128): missing verify throws;
`this.version = options.version || "CAS1.0"`; `url.parse(this.ssoBase)`
throws a TypeError when `ssoBaseURL` is absent (not a string); the version
switch sets `_validateUri` and throws on an unsupported version. -/
def construct (options : Options) (hasVerify : Bool) : Except String StrategyState :=
  if !hasVerify then
    .error "cas authentication strategy requires a verify function"
  else
    match options.ssoBaseURL with
    | none => .error "TypeError: the url argument must be of type string"
    | some ssoBase =>
      let version := jsOrOpt options.version "CAS1.0"
      if version = "CAS1.0" then
        .ok ⟨version, ssoBase, options.useSaml, "cas", "/validate",
             options.passReqToCallback⟩
      else if version = "CAS3.0" then
        .ok ⟨version, ssoBase, options.useSaml, "cas",
             if options.useSaml then "/samlValidate" else "/p3/serviceValidate",
             options.passReqToCallback⟩
      else .error ("unsupported version " ++ version)

def exceptOk {ε α : Type} : Except ε α → Bool
  | .ok _ => true
  | .error _ => false

/-! ## The Node `url` module, on the fragment this code exercises

`url.parse` / `url.format` / `url.resolve` over absolute `scheme://host`
URLs with optional path and query string, modelled over character lists
(components are taken unescaped; no percent-decoding occurs on the names
and values this code handles). -/

/-- Split at the first occurrence of `c`: the prefix, and the suffix when
`c` occurs. -/
def splitFirst (c : Char) : List Char → List Char × Option (List Char)
  | [] => ([], none)
  | x :: xs =>
    if x = c then ([], some xs)
    else
      let r := splitFirst c xs
      (x :: r.1, r.2)

/-- Join with a separator character (inverse of `splitAll` on separator-free
pieces). -/
def joinWith (c : Char) : List (List Char) → List Char
  | [] => []
  | [l] => l
  | l :: ls => l ++ c :: joinWith c ls

/-- A query item: key and value. -/
abbrev QItem := List Char × List Char

/-- `querystring.stringify` of one pair. -/
def formatQueryItem (kv : QItem) : List Char := kv.1 ++ '=' :: kv.2

/-- `querystring.stringify`. -/
def formatQuery (q : List QItem) : List Char := joinWith '&' (q.map formatQueryItem)

/-- `querystring.parse` of one `&`-separated segment: split at the first
`=`; a missing value is the empty string. -/
def parseQueryItem (p : List Char) : QItem :=
  let r := splitFirst '=' p
  (r.1, r.2.getD [])

/-- `querystring.parse`: split on `&`, drop empty segments, split each at
the first `=`. -/
def parseQuery (s : List Char) : List QItem :=
  ((splitAll '&' s).filter (· ≠ [])).map parseQueryItem

/-- The pieces of a parsed absolute URL that `service`/`authenticate`
manipulate. -/
structure UrlC where
  scheme : List Char
  host : List Char
  path : List Char
  query : List QItem
deriving DecidableEq

/-- Characters Node accepts in a protocol scheme. -/
def schemeOkChar (c : Char) : Bool :=
  c.isAlpha || c.isDigit || c = '+' || c = '-' || c = '.'

/-- `url.format` on a parsed URL whose `search` has been removed: the
query object is stringified, and an empty query contributes nothing
(no `?`). -/
def urlFormat (u : UrlC) : List Char :=
  u.scheme ++ (':' :: '/' :: '/' :: u.host) ++ u.path ++
    (if u.query.isEmpty then [] else '?' :: formatQuery u.query)

/-- `url.parse(s, true)` on the fragment exercised: `none` when `s` is not
an absolute `scheme://host...` URL (Node then yields no protocol/host and
`url.resolve` treats it as relative). -/
def urlParse (s : List Char) : Option UrlC :=
  let q := splitFirst '?' s
  let sch := splitFirst ':' q.1
  match sch.2 with
  | none => none
  | some rest =>
    if sch.1 ≠ [] ∧ sch.1.all schemeOkChar then
      match rest with
      | '/' :: '/' :: hostpath =>
        let hp := splitFirst '/' hostpath
        if hp.1 = [] then none
        else
          some ⟨sch.1, hp.1,
                match hp.2 with | none => [] | some p => '/' :: p,
                match q.2 with | none => [] | some qs => parseQuery qs⟩
      | _ => none
    else none

/-- Well-formedness of URL pieces under which `url.format` and `url.parse`
are mutually inverse: scheme of scheme characters, host free of `/` and
`?`, path absent or absolute and free of `?`, keys and values free of the
query metacharacters that would be escaped on a real wire. -/
structure UrlWF (u : UrlC) : Prop where
  scheme_ne : u.scheme ≠ []
  scheme_ok : u.scheme.all schemeOkChar = true
  host_ne : u.host ≠ []
  host_no_slash : '/' ∉ u.host
  host_no_q : '?' ∉ u.host
  path_shape : u.path = [] ∨ ∃ p, u.path = '/' :: p
  path_no_q : '?' ∉ u.path
  query_wf : ∀ kv ∈ u.query,
    '&' ∉ kv.1 ∧ '&' ∉ kv.2 ∧ '=' ∉ kv.1 ∧ '?' ∉ kv.1 ∧ '?' ∉ kv.2

/-- `url.resolve(base, ref)` on the cases this code exercises: an absolute
reference wins; a root-relative reference is resolved against the base's
origin. -/
def urlResolve (base ref : List Char) : List Char :=
  match urlParse ref with
  | some _ => ref
  | none =>
    match urlParse base with
    | some b => b.scheme ++ ':' :: '/' :: '/' :: b.host ++ ref
    | none => ref

/-- The `ticket` query key. -/
def ticketKey : List Char := "ticket".toList

/-- `Strategy.service` (src/index.js:136-146): the configured service URL
override or the request's original URL, resolved against the server base
URL, reparsed, with the `ticket` query key deleted and the stale `search`
removed so that `url.format` rebuilds the query from the query object. -/
def service (serviceURL : Option (List Char)) (serverBaseURL originalUrl : List Char) :
    List Char :=
  let svc := match serviceURL with
    | some s => if s = [] then originalUrl else s
    | none => originalUrl
  let resolved := urlResolve serverBaseURL svc
  match urlParse resolved with
  | some u => urlFormat { u with query := u.query.filter (fun kv => kv.1 ≠ ticketKey) }
  | none => resolved

/-- The `service` query key. -/
def serviceKey : List Char := "service".toList

/-- One iteration of the login-parameter loop (src/index.js:162-167): only
truthy values are copied into the query object. -/
def loginStep (acc : List QItem) (kv : QItem) : List QItem :=
  if kv.2 ≠ [] then setKey acc kv.1 kv.2 else acc

/-- The redirect branch of `Strategy.authenticate` (src/index.js:158-168):
parse `ssoBase + "/login"`, set `query.service` to the canonical service
URL, copy every truthy caller-supplied login parameter into the query, and
format. `none` stands for an `ssoBase` Node would not parse into an
absolute URL (not reached on well-formed configuration). -/
def loginRedirect (ssoBase svc : List Char)
    (loginParams : List (List Char × List Char)) : Option (List Char) :=
  match urlParse (ssoBase ++ ('/' :: "login".toList)) with
  | none => none
  | some u =>
    let q0 := setKey u.query serviceKey svc
    let q1 := loginParams.foldl loginStep q0
    some (urlFormat { u with query := q1 })

/-! ## Helper values for concrete instantiations -/

/-- A caller verify that always succeeds with the given CAS1.0 user line. -/
def okVerifyL : List Char → VerifyResult := fun u => ⟨.null, .str (String.mk u), .undef⟩

/-- A caller verify that always succeeds with the given principal. -/
def okVerifyJ : JSValue → VerifyResult := fun v => ⟨.null, v, .undef⟩

/-- `this.version` as the constructor computes it:
`options.version || "CAS1.0"` (src/index.js:22). -/
def effVersion (o : Options) : String := jsOrOpt o.version "CAS1.0"

/-- The origin part of a URL: `scheme://host`. -/
def originOf (u : UrlC) : List Char := u.scheme ++ ':' :: '/' :: '/' :: u.host

/-- The path-and-query part of a URL, as a request's `originalUrl`. -/
def originalUrlOf (u : UrlC) : List Char :=
  u.path ++ (if u.query.isEmpty then [] else '?' :: formatQuery u.query)

/-- A concrete request URL carrying a ticket. -/
def uEx : UrlC :=
  ⟨"http".toList, "app.example.com".toList, "/profile".toList,
   [("a".toList, "1".toList), (ticketKey, "ST-123".toList)]⟩

/-- The SSO base URL of the worked example. -/
def bEx : UrlC := ⟨"http".toList, "sso.example.com".toList, "/cas".toList, []⟩

theorem splitFirst_not_mem {c : Char} {l : List Char} (h : c ∉ l) :
    splitFirst c l = (l, none) := by
  induction l with
  | nil => rfl
  | cons x xs ih =>
    simp only [List.mem_cons, not_or] at h
    simp [splitFirst, h.1, ih h.2, Ne.symm h.1]

theorem splitFirst_append {c : Char} {l1 l2 : List Char} (h : c ∉ l1) :
    splitFirst c (l1 ++ c :: l2) = (l1, some l2) := by
  induction l1 with
  | nil => simp [splitFirst]
  | cons x xs ih =>
    simp only [List.mem_cons, not_or] at h
    simp [splitFirst, h.1, ih h.2, Ne.symm h.1]

theorem splitAll_ne_nil {c : Char} {l : List Char} : splitAll c l ≠ [] := by
  induction l with
  | nil => simp [splitAll]
  | cons x xs ih =>
    simp only [splitAll]
    cases h : splitAll c xs with
    | nil => exact absurd h ih
    | cons a t =>
      by_cases hx : x = c <;> simp [hx]

theorem splitAll_not_mem {c : Char} {l : List Char} (h : c ∉ l) :
    splitAll c l = [l] := by
  induction l with
  | nil => rfl
  | cons x xs ih =>
    simp only [List.mem_cons, not_or] at h
    have hxc : ¬ x = c := fun hh => h.1 hh.symm
    simp [splitAll, ih h.2, hxc]

theorem splitAll_append {c : Char} {l rest : List Char} (h : c ∉ l) :
    splitAll c (l ++ c :: rest) = l :: splitAll c rest := by
  induction l with
  | nil =>
    simp only [List.nil_append, splitAll]
    cases hr : splitAll c rest with
    | nil => exact absurd hr splitAll_ne_nil
    | cons a t => simp
  | cons x xs ih =>
    simp only [List.mem_cons, not_or] at h
    have hxc : ¬ x = c := fun hh => h.1 hh.symm
    simp only [List.cons_append, splitAll, List.append_eq]
    rw [ih h.2]
    simp [hxc]

theorem splitAll_joinWith {c : Char} (ls : List (List Char)) (hne : ls ≠ [])
    (h : ∀ l ∈ ls, c ∉ l) : splitAll c (joinWith c ls) = ls := by
  induction ls with
  | nil => exact absurd rfl hne
  | cons l ls ih =>
    cases ls with
    | nil =>
      simpa [joinWith] using splitAll_not_mem (h l (by simp))
    | cons l2 ls2 =>
      have h1 : c ∉ l := h l (by simp)
      have hrest : ∀ x ∈ l2 :: ls2, c ∉ x := fun x hx => h x (List.mem_cons_of_mem _ hx)
      calc splitAll c (joinWith c (l :: l2 :: ls2))
          = splitAll c (l ++ c :: joinWith c (l2 :: ls2)) := rfl
        _ = l :: splitAll c (joinWith c (l2 :: ls2)) := splitAll_append h1
        _ = l :: l2 :: ls2 := by rw [ih (by simp) hrest]

theorem parseQuery_formatQuery {q : List QItem} (hne : q ≠ [])
    (h : ∀ kv ∈ q, '&' ∉ kv.1 ∧ '&' ∉ kv.2 ∧ '=' ∉ kv.1) :
    parseQuery (formatQuery q) = q := by
  unfold parseQuery formatQuery
  rw [splitAll_joinWith (q.map formatQueryItem)
    (by simpa using hne)
    (by
      intro l hl
      simp only [List.mem_map] at hl
      obtain ⟨kv, hkv, rfl⟩ := hl
      obtain ⟨h1, h2, _⟩ := h kv hkv
      simp [formatQueryItem, h1, h2])]
  rw [List.filter_eq_self.mpr (by
    intro l hl
    simp only [List.mem_map] at hl
    obtain ⟨kv, _, rfl⟩ := hl
    simp [formatQueryItem])]
  rw [List.map_map]
  have hpt : ∀ kv ∈ q, (parseQueryItem ∘ formatQueryItem) kv = id kv := by
    intro kv hkv
    obtain ⟨k, v⟩ := kv
    obtain ⟨_, _, h3⟩ := h _ hkv
    simp only [Function.comp_apply, parseQueryItem, formatQueryItem, id_eq]
    rw [splitFirst_append h3]
    rfl
  rw [List.map_congr_left hpt, List.map_id]

/-- On well-formed pieces, `url.parse` recovers exactly what `url.format`
produced: the formatted service URL is a valid absolute URL with the same
scheme, host, path and query. -/
theorem urlParse_urlFormat {u : UrlC} (h : UrlWF u) : urlParse (urlFormat u) = some u := by
  obtain ⟨hsne, hsok, hhne, hhs, hhq, hps, hpq, hqwf⟩ := h
  have hsq : '?' ∉ u.scheme := fun hm => absurd (List.all_eq_true.mp hsok _ hm) (by decide)
  have hsc : ':' ∉ u.scheme := fun hm => absurd (List.all_eq_true.mp hsok _ hm) (by decide)
  have hpre : '?' ∉ u.scheme ++ ':' :: '/' :: '/' :: (u.host ++ u.path) := by
    intro hm
    simp only [List.mem_append, List.mem_cons] at hm
    rcases hm with hm | hm | hm | hm | hm | hm
    · exact hsq hm
    · exact absurd hm (by decide)
    · exact absurd hm (by decide)
    · exact absurd hm (by decide)
    · exact hhq hm
    · exact hpq hm
  have hsplit1 : splitFirst '?' (urlFormat u) =
      (u.scheme ++ ':' :: '/' :: '/' :: (u.host ++ u.path),
       if u.query.isEmpty then none else some (formatQuery u.query)) := by
    by_cases hq0 : u.query.isEmpty
    · rw [urlFormat, if_pos hq0, List.append_nil, if_pos hq0]
      rw [show u.scheme ++ (':' :: '/' :: '/' :: u.host) ++ u.path =
           u.scheme ++ ':' :: '/' :: '/' :: (u.host ++ u.path) by
         simp [List.append_assoc]]
      exact splitFirst_not_mem hpre
    · rw [urlFormat, if_neg hq0, if_neg hq0]
      rw [show u.scheme ++ (':' :: '/' :: '/' :: u.host) ++ u.path ++
            ('?' :: formatQuery u.query) =
           (u.scheme ++ ':' :: '/' :: '/' :: (u.host ++ u.path)) ++
            '?' :: formatQuery u.query by simp [List.append_assoc]]
      exact splitFirst_append hpre
  have hsplit2 : splitFirst ':' (u.scheme ++ ':' :: '/' :: '/' :: (u.host ++ u.path)) =
      (u.scheme, some ('/' :: '/' :: (u.host ++ u.path))) := splitFirst_append hsc
  have hsplit3 : splitFirst '/' (u.host ++ u.path) =
      (u.host, match u.path with | [] => none | _ :: p => some p) := by
    rcases hps with hp0 | ⟨p, hp⟩
    · rw [hp0, List.append_nil]
      exact splitFirst_not_mem hhs
    · rw [hp]
      exact splitFirst_append hhs
  rw [urlParse]
  rw [hsplit1]
  simp only
  rw [hsplit2]
  simp only
  rw [if_pos ⟨hsne, hsok⟩]
  rw [hsplit3]
  simp only
  rw [if_neg hhne]
  rcases hps with hp0 | ⟨p, hp⟩
  · by_cases hq0 : u.query.isEmpty
    · simp only [hp0, hq0, if_pos]
      rw [← hp0, ← List.isEmpty_iff.mp hq0]
    · simp only [hp0, if_neg hq0]
      simp only [parseQuery_formatQuery (fun hq' => hq0 (by simp [hq']))
        (fun kv hkv => ⟨(hqwf kv hkv).1, (hqwf kv hkv).2.1, (hqwf kv hkv).2.2.1⟩)]
      rw [← hp0]
  · by_cases hq0 : u.query.isEmpty
    · simp only [hp, hq0, if_pos]
      rw [← hp, ← List.isEmpty_iff.mp hq0]
    · simp only [hp, if_neg hq0]
      simp only [parseQuery_formatQuery (fun hq' => hq0 (by simp [hq']))
        (fun kv hkv => ⟨(hqwf kv hkv).1, (hqwf kv hkv).2.1, (hqwf kv hkv).2.2.1⟩)]
      rw [← hp]

theorem splitFirst_cons_fst (c x : Char) (xs : List Char) (h : ¬ x = c) :
    splitFirst c (x :: xs) = (x :: (splitFirst c xs).1, (splitFirst c xs).2) := by
  simp [splitFirst, h]

theorem urlParse_cons_slash {t : List Char} : urlParse ('/' :: t) = none := by
  simp only [urlParse, splitFirst_cons_fst '?' '/' t (by decide)]
  simp only [splitFirst_cons_fst ':' '/' ((splitFirst '?' t).1) (by decide)]
  cases h2 : (splitFirst ':' (splitFirst '?' t).1).2 with
  | none => rfl
  | some r =>
    have hno : ¬(('/' :: (splitFirst ':' (splitFirst '?' t).1).1) ≠ [] ∧
        ('/' :: (splitFirst ':' (splitFirst '?' t).1).1).all schemeOkChar = true) := by
      intro hcon
      have hall := hcon.2
      simp only [List.all_cons, Bool.and_eq_true] at hall
      exact absurd hall.1 (by decide)
    simp [hno]
    intro h _
    exact absurd h (by decide)

/-- Adding a fresh key appends. -/
theorem setKey_fresh {α β : Type} [DecidableEq α] {q : List (α × β)} {k : α} {v : β}
    (h : k ∉ q.map Prod.fst) : setKey q k v = q ++ [(k, v)] := by
  rw [setKey, if_neg]
  simp only [List.any_eq_true, decide_eq_true_eq, not_exists, not_and]
  intro kv hkv hk
  exact h (by simpa [hk] using List.mem_map_of_mem Prod.fst hkv)

/-- The login-parameter loop appends exactly the truthy parameters when
their keys are fresh and mutually distinct. -/
theorem foldl_setKey_truthy {acc : List QItem} (lp : List QItem)
    (hfresh : ∀ kv ∈ lp, kv.1 ∉ acc.map Prod.fst)
    (hnodup : (lp.map Prod.fst).Nodup) :
    lp.foldl loginStep acc = acc ++ lp.filter (fun kv => kv.2 ≠ []) := by
  induction lp generalizing acc with
  | nil => simp
  | cons kv rest ih =>
    obtain ⟨k, v⟩ := kv
    simp only [List.map_cons, List.nodup_cons] at hnodup
    rw [List.foldl_cons]
    by_cases hv : v = []
    · rw [show loginStep acc (k, v) = acc from by simp [loginStep, hv]]
      rw [ih (fun kv' hkv' => hfresh kv' (List.mem_cons_of_mem _ hkv')) hnodup.2]
      rw [List.filter_cons]
      simp [hv]
    · rw [show loginStep acc (k, v) = acc ++ [(k, v)] from by
        simp only [loginStep, if_pos (by simpa using hv)]
        exact setKey_fresh (hfresh (k, v) (by simp))]
      rw [ih (by
          intro kv' hkv'
          simp only [List.map_append, List.mem_append]
          rintro (hin | hin)
          · exact hfresh kv' (List.mem_cons_of_mem _ hkv') hin
          · simp only [List.map_cons, List.map_nil, List.mem_singleton] at hin
            exact hnodup.1 (hin ▸ List.mem_map_of_mem Prod.fst hkv')) hnodup.2]
      rw [List.filter_cons]
      simp [hv]

theorem urlFormat_eq_origin_append (u : UrlC) :
    urlFormat u = originOf u ++ originalUrlOf u := by
  simp [urlFormat, originOf, originalUrlOf, List.append_assoc]

/-! ## Claims -/

/-- C1 (amended): whenever the server explicitly denies the ticket —
CAS1.0 first line `no`, CAS3.0 `authenticationfailure`, SAML non-success
status — the `_validate` functions call `verified` with an `Error`, and
`verified` routes every truthy `err` to `self.error`, so the outcome is
the Error variant (not the Fail variant), with the server-provided
failure code appended to the error message in the CAS3.0 case. -/
theorem c1_rejection_is_error_variant :
    (∀ (vf : List Char → VerifyResult) (body : List Char),
      cas1parse body = Cas1Result.reject →
      cas1validate vf body = Signal.error (.errObj "Authentication failed")) ∧
    (∀ (vf : JSValue → VerifyResult) (pr : Option JSValue) (m : String),
      cas3parse pr = Cas3Outcome.reject m →
      cas3validate vf pr = Signal.error (.errObj m)) ∧
    (∀ (vf : JSValue → VerifyResult) (pr : Option JSValue),
      samlParse pr = SamlResult.authFailed →
      samlValidate vf pr = Signal.error (.errObj "Authentication failed")) := by
  refine ⟨fun vf body h => ?_, fun vf pr m h => ?_, fun vf pr h => ?_⟩
  · rw [cas1validate, h]; rfl
  · rw [cas3validate, h]; rfl
  · rw [samlValidate, h]; rfl

/-- C1 witness: a concrete `no` response ends in the Error variant. -/
theorem c1_witness :
    cas1parse ("no\n".toList) = Cas1Result.reject ∧
    cas1validate okVerifyL ("no\n".toList) =
      Signal.error (.errObj "Authentication failed") :=
  ⟨by decide, c1_rejection_is_error_variant.1 okVerifyL _ (by decide)⟩

/-- C1 counterexample: the claim says an explicit denial surfaces as the
Fail variant; on the code a CAS1.0 `no` response surfaces as the Error
variant (`verified(new Error(...))` hits `self.error`), not Fail. -/
theorem c1_counterexample :
    Signal.isFail (cas1validate okVerifyL ("no\n".toList)) = false ∧
    cas1validate okVerifyL ("no\n".toList) =
      Signal.error (.errObj "Authentication failed") := by
  exact ⟨rfl, rfl⟩

/-- C2 (amended): the CAS1.0 parser characterized over all bodies: first
split line `no` rejects; first line `yes` with a second split line
available (which a trailing `"yes\n"` produces: the second line is then
empty) hands line 1 to verify exactly as split, not trimmed; every other
shape (empty body, a lone `yes` with no newline, an unrecognized first
token) is the malformed-response error. -/
theorem c2_cas1_characterization :
    (∀ body : List Char, (splitAll '\n' body).getD 0 [] = "no".toList →
      cas1parse body = Cas1Result.reject) ∧
    (∀ body : List Char, (splitAll '\n' body).getD 0 [] = "yes".toList →
      2 ≤ (splitAll '\n' body).length →
      cas1parse body = Cas1Result.principal ((splitAll '\n' body).getD 1 [])) ∧
    (∀ body : List Char, (splitAll '\n' body).getD 0 [] ≠ "no".toList →
      ¬((splitAll '\n' body).getD 0 [] = "yes".toList ∧ 2 ≤ (splitAll '\n' body).length) →
      cas1parse body = Cas1Result.badResponse) ∧
    cas1parse ("yes\nalice\n".toList) = Cas1Result.principal ("alice".toList) ∧
    cas1parse ("no\n".toList) = Cas1Result.reject ∧
    cas1parse ("".toList) = Cas1Result.badResponse ∧
    cas1parse ("yes".toList) = Cas1Result.badResponse ∧
    cas1parse ("yes\n".toList) = Cas1Result.principal [] := by
  have hlen : ∀ body : List Char, 1 ≤ (splitAll '\n' body).length := by
    intro body
    have := splitAll_ne_nil (c := '\n') (l := body)
    exact Nat.succ_le_of_lt (List.length_pos.mpr this)
  refine ⟨fun body h => ?_, fun body h1 h2 => ?_, fun body h1 h2 => ?_,
    by decide, by decide, by decide, by decide, by decide⟩
  · rw [cas1parse]
    simp only [if_pos (hlen body), if_pos h]
  · rw [cas1parse]
    have hno : ¬ (splitAll '\n' body).getD 0 [] = "no".toList := by
      rw [h1]; decide
    simp only [if_pos (hlen body), if_neg hno, if_pos h1, if_pos h2]
  · rw [cas1parse]
    simp only [if_pos (hlen body), if_neg h1]
    by_cases hy : (splitAll '\n' body).getD 0 [] = "yes".toList
    · have h2' : ¬ 2 ≤ (splitAll '\n' body).length := fun hc => h2 ⟨hy, hc⟩
      simp only [if_pos hy, if_neg h2']
    · simp only [if_neg hy]

/-- C2 witness: the characterization applied to the explicit rejection. -/
theorem c2_witness :
    (splitAll '\n' ("no\nX".toList)).getD 0 [] = "no".toList ∧
    cas1parse ("no\nX".toList) = Cas1Result.reject :=
  ⟨by decide, c2_cas1_characterization.1 _ (by decide)⟩

/-- C2 counterexample: the claim says `"yes\n"` is a malformed-response
error and the principal is trimmed; on the code `"yes\n"` splits into two
lines and succeeds with the empty principal, and a trailing space on the
user line is kept as-is. -/
theorem c2_counterexample :
    cas1parse ("yes\n".toList) = Cas1Result.principal [] ∧
    cas1parse ("yes\n".toList) ≠ Cas1Result.badResponse ∧
    cas1parse ("yes\nalice \n".toList) = Cas1Result.principal ("alice ".toList) ∧
    ("alice ".toList : List Char) ≠ "alice".toList := by
  refine ⟨by decide, by decide, by decide, by decide⟩

/-- C3 (amended): a transport error on the validation request fires the
`error` handler, which calls `self.fail(new Error(e.message || 'Unknown
error'))`: the outcome is the Fail variant (not the Error variant, which
is what protocol rejections produce), exactly one signal is emitted for
the event and no retry occurs. -/
theorem c3_transport_error_fails :
    ∀ (validate : List Char → Signal) (body : List Char) (m : String),
      (m ≠ "" → runEvents validate body [TransportEvent.errEvent m] =
        [Signal.fail (.errObj m)]) ∧
      (m = "" → runEvents validate body [TransportEvent.errEvent m] =
        [Signal.fail (.errObj "Unknown error")]) := by
  intro validate body m
  constructor
  · intro h
    rw [runEvents, runEvents, jsOrS, if_neg h]
  · intro h
    rw [runEvents, runEvents, h, jsOrS, if_pos rfl]

/-- C3 witness: a concrete connection-refused error yields exactly one
Fail signal; an empty message falls back to `Unknown error`. -/
theorem c3_witness :
    runEvents (cas1validate okVerifyL) [] [TransportEvent.errEvent "connect ECONNREFUSED"] =
      [Signal.fail (.errObj "connect ECONNREFUSED")] ∧
    runEvents (cas1validate okVerifyL) [] [TransportEvent.errEvent ""] =
      [Signal.fail (.errObj "Unknown error")] :=
  ⟨(c3_transport_error_fails (cas1validate okVerifyL) [] "connect ECONNREFUSED").1
      (by decide),
   (c3_transport_error_fails (cas1validate okVerifyL) [] "").2 rfl⟩

/-- C3 counterexample: the claim says a transport failure surfaces as the
Error variant; on the code it surfaces through `self.fail`, the Fail
variant. -/
theorem c3_counterexample :
    Signal.isError ((runEvents (cas1validate okVerifyL) []
        [TransportEvent.errEvent "connect ECONNREFUSED"]).headD
        (Signal.error .undef)) = false ∧
    runEvents (cas1validate okVerifyL) [] [TransportEvent.errEvent "connect ECONNREFUSED"] =
      [Signal.fail (.errObj "connect ECONNREFUSED")] := ⟨rfl, rfl⟩

/-- C6 (amended): each terminal transport event (`end` or `error`) emits
exactly one outcome signal — `_validate` invokes `verified` exactly once
and `verified` picks exactly one channel — so an attempt whose transport
fires exactly one terminal callback produces exactly one outcome. The
handlers carry no double-signal guard, so an attempt whose transport
erroneously fires several terminal callbacks signals once per firing. -/
theorem c6_one_signal_per_terminal_event :
    ∀ (validate : List Char → Signal) (body : List Char) (evs : List TransportEvent),
      (runEvents validate body evs).length =
        List.countP (fun e => TransportEvent.isTerminal e) evs := by
  intro validate body evs
  induction evs generalizing body with
  | nil => rfl
  | cons e rest ih =>
    cases e with
    | data c =>
      simp [runEvents, List.countP_cons, TransportEvent.isTerminal, ih]
    | ended =>
      simp [runEvents, List.countP_cons, TransportEvent.isTerminal, ih]
    | errEvent m =>
      simp [runEvents, List.countP_cons, TransportEvent.isTerminal, ih]

/-- C6 counterexample: the claim says no attempt signals more than one
outcome even when the transport callbacks fire multiple times; with no
guard in the code, a response `end` followed by an erroneous `error`
firing emits two signals. -/
theorem c6_counterexample :
    (runEvents (cas1validate okVerifyL) []
      [TransportEvent.ended, TransportEvent.errEvent "socket hang up"]).length = 2 ∧
    ¬((runEvents (cas1validate okVerifyL) []
      [TransportEvent.ended, TransportEvent.errEvent "socket hang up"]).length ≤ 1) := by
  exact ⟨rfl, by decide⟩

/-- C4 (confirmed): the CAS3.0 plain-XML parser: a parse failure is the
distinct `bad server response` error; a response whose `serviceresponse`
carries an `authenticationfailure` node with a `code` attribute rejects
with that code in the message; with no failure node, an
`authenticationsuccess` node becomes the principal payload unchanged;
with neither node the outcome is the generic `Authentication failed`. -/
theorem c4_cas3_parse_behavior :
    cas3parse none = Cas3Outcome.badResponse ∧
    (∀ (rf sf aff attrs : List (String × JSValue)) (c : String),
      rf.lookup "serviceresponse" = some (.obj sf) →
      sf.lookup "authenticationfailure" = some (.obj aff) →
      aff.lookup "$" = some (.obj attrs) →
      attrs.lookup "code" = some (.str c) →
      cas3parse (some (.obj rf)) = Cas3Outcome.reject ("Authentication failed " ++ c)) ∧
    (∀ (rf sf su : List (String × JSValue)),
      rf.lookup "serviceresponse" = some (.obj sf) →
      sf.lookup "authenticationfailure" = none →
      sf.lookup "authenticationsuccess" = some (.obj su) →
      cas3parse (some (.obj rf)) = Cas3Outcome.principal (.obj su)) ∧
    (∀ (rf sf : List (String × JSValue)),
      rf.lookup "serviceresponse" = some (.obj sf) →
      sf.lookup "authenticationfailure" = none →
      sf.lookup "authenticationsuccess" = none →
      cas3parse (some (.obj rf)) = Cas3Outcome.reject "Authentication failed") := by
  refine ⟨rfl, fun rf sf aff attrs c h1 h2 h3 h4 => ?_,
    fun rf sf su h1 h2 h3 => ?_, fun rf sf h1 h2 h3 => ?_⟩
  · simp [cas3parse, cas3extract, JSValue.get, h1, h2, h3, h4, truthy, jsStr,
      bind, Except.bind, pure, Except.pure]
  · simp [cas3parse, cas3extract, JSValue.get, h1, h2, h3, truthy,
      bind, Except.bind, pure, Except.pure]
  · simp [cas3parse, cas3extract, JSValue.get, h1, h2, h3, truthy,
      bind, Except.bind, pure, Except.pure]

/-- C4 witness: the spec's own examples — `INVALID_TICKET` carried through,
non-XML body a bad-response error, a success node passed through. -/
theorem c4_witness :
    cas3parse (some (.obj [("serviceresponse", .obj [("authenticationfailure",
        .obj [("$", .obj [("code", .str "INVALID_TICKET")])])])])) =
      Cas3Outcome.reject "Authentication failed INVALID_TICKET" ∧
    cas3parse none = Cas3Outcome.badResponse ∧
    cas3parse (some (.obj [("serviceresponse", .obj [("authenticationsuccess",
        .obj [("user", .str "bob")])])])) =
      Cas3Outcome.principal (.obj [("user", .str "bob")]) :=
  ⟨c4_cas3_parse_behavior.2.1 _ _ _ _ "INVALID_TICKET" rfl rfl rfl rfl,
   c4_cas3_parse_behavior.1,
   c4_cas3_parse_behavior.2.2.1 _ _ _ rfl rfl rfl⟩

/-- C5 (confirmed): the SAML parser on well-formed XML: a structural
throw during extraction is caught and becomes the generic
`Authentication failed`; a non-matching status code becomes the same
generic outcome; and no other outcome than that or a success principal is
possible — in particular no structural-parse exception escapes and no
well-formed document is reported as a bad response. -/
theorem c5_saml_structural_recovery :
    (∀ r : JSValue, samlExtract r = Except.error () →
      samlParse (some r) = SamlResult.authFailed) ∧
    (∀ r : JSValue, samlExtract r = Except.ok none →
      samlParse (some r) = SamlResult.authFailed) ∧
    (∀ r : JSValue, samlParse (some r) = SamlResult.authFailed ∨
      ∃ u attrs, samlParse (some r) = SamlResult.principal u attrs) := by
  refine ⟨fun r h => ?_, fun r h => ?_, fun r => ?_⟩
  · rw [samlParse, h]
  · rw [samlParse, h]
  · rw [samlParse]
    cases h : samlExtract r with
    | error e => exact Or.inl rfl
    | ok o =>
      cases o with
      | none => exact Or.inl rfl
      | some p => exact Or.inr ⟨p.1, p.2, rfl⟩

/-- C5 witness: a document missing the SOAP body throws inside the
extraction and is downgraded to the generic failure; a well-formed
non-success status is the same generic failure. -/
theorem c5_witness :
    samlParse (some (.obj [])) = SamlResult.authFailed ∧
    samlParse (some (.obj [("envelope", .obj [("body", .obj [("response",
      .obj [("status", .obj [("statuscode",
        .obj [("$", .obj [("Value", .str "samlp:RequestDenied")])])])])])])])) =
      SamlResult.authFailed :=
  ⟨c5_saml_structural_recovery.1 _ rfl, c5_saml_structural_recovery.2.1 _ rfl⟩

/-- C10 (amended): in the CAS3.0 parser, when the `authenticationfailure`
node carries no attribute object at all, the access
`...authenticationfailure.$.code` throws and the `catch` yields the
generic `Authentication failed`; but when an attribute object exists and
merely lacks `code`, nothing throws and the string concatenation yields
`Authentication failed undefined` instead. A text-only failure node (a
string in the xml2js mapping) also reaches the throwing case. -/
theorem c10_failure_without_code :
    (∀ (rf sf aff : List (String × JSValue)),
      rf.lookup "serviceresponse" = some (.obj sf) →
      sf.lookup "authenticationfailure" = some (.obj aff) →
      aff.lookup "$" = none →
      cas3parse (some (.obj rf)) = Cas3Outcome.reject "Authentication failed") ∧
    (∀ (rf sf aff attrs : List (String × JSValue)),
      rf.lookup "serviceresponse" = some (.obj sf) →
      sf.lookup "authenticationfailure" = some (.obj aff) →
      aff.lookup "$" = some (.obj attrs) →
      attrs.lookup "code" = none →
      cas3parse (some (.obj rf)) = Cas3Outcome.reject "Authentication failed undefined") ∧
    (∀ (rf sf : List (String × JSValue)) (s : String),
      rf.lookup "serviceresponse" = some (.obj sf) →
      sf.lookup "authenticationfailure" = some (.str s) →
      s ≠ "" →
      cas3parse (some (.obj rf)) = Cas3Outcome.reject "Authentication failed") := by
  refine ⟨fun rf sf aff h1 h2 h3 => ?_, fun rf sf aff attrs h1 h2 h3 h4 => ?_,
    fun rf sf s h1 h2 h3 => ?_⟩
  · simp [cas3parse, cas3extract, JSValue.get, h1, h2, h3, truthy,
      bind, Except.bind, pure, Except.pure]
  · simp [cas3parse, cas3extract, JSValue.get, h1, h2, h3, h4, truthy, jsStr,
      bind, Except.bind, pure, Except.pure]
  · simp [cas3parse, cas3extract, JSValue.get, h1, h2, h3, truthy,
      bind, Except.bind, pure, Except.pure]

/-- C10 witness: a failure node with no attribute object at all throws on
the code access and the catch produces the generic failure. -/
theorem c10_witness :
    cas3parse (some (.obj [("serviceresponse", .obj [("authenticationfailure",
        .obj [("description", .str "denied")])])])) =
      Cas3Outcome.reject "Authentication failed" :=
  c10_failure_without_code.1 _ _ _ rfl rfl rfl

/-- C10 counterexample: the claim says a failure node that merely lacks
the `code` attribute also produces the generic `Authentication failed`;
on the code, when the attribute object exists (here with another
attribute), nothing throws and the message is
`Authentication failed undefined`. -/
theorem c10_counterexample :
    cas3parse (some (.obj [("serviceresponse", .obj [("authenticationfailure",
        .obj [("$", .obj [("foo", .str "bar")])])])])) =
      Cas3Outcome.reject "Authentication failed undefined" ∧
    cas3parse (some (.obj [("serviceresponse", .obj [("authenticationfailure",
        .obj [("$", .obj [("foo", .str "bar")])])])])) ≠
      Cas3Outcome.reject "Authentication failed" := by
  constructor
  · rfl
  · intro h
    rw [show cas3parse (some (.obj [("serviceresponse", .obj [("authenticationfailure",
        .obj [("$", .obj [("foo", .str "bar")])])])])) =
      Cas3Outcome.reject "Authentication failed undefined" from rfl] at h
    injection h with h'
    exact absurd h' (by decide)

/-- C7 (confirmed): for a request URL with a `ticket` query parameter,
`service` (with no configured override) returns the resolved request URL
with exactly the `ticket` key deleted: the output formats the same URL
structure with the `ticket`-free query (an emptied query contributes no
`?`), it reparses as a valid absolute URL with scheme, host, path and the
other query parameters unchanged, and no `ticket` key remains. -/
theorem c7_service_removes_ticket (u : UrlC) (hwf : UrlWF u) (p : List Char)
    (hp : u.path = '/' :: p) (hticket : ticketKey ∈ u.query.map Prod.fst) :
    service none (originOf u) (originalUrlOf u) =
      urlFormat { u with query := u.query.filter (fun kv => kv.1 ≠ ticketKey) } ∧
    urlParse (service none (originOf u) (originalUrlOf u)) =
      some { u with query := u.query.filter (fun kv => kv.1 ≠ ticketKey) } ∧
    ticketKey ∉ (u.query.filter (fun kv => kv.1 ≠ ticketKey)).map Prod.fst := by
  have hrel : urlParse (originalUrlOf u) = none := by
    rw [originalUrlOf, hp, List.cons_append]
    exact urlParse_cons_slash
  have hwf0 : UrlWF ⟨u.scheme, u.host, [], []⟩ :=
    ⟨hwf.scheme_ne, hwf.scheme_ok, hwf.host_ne, hwf.host_no_slash, hwf.host_no_q,
     Or.inl rfl, by simp, by simp⟩
  have horig : urlParse (originOf u) = some ⟨u.scheme, u.host, [], []⟩ := by
    have h0 := urlParse_urlFormat hwf0
    have : urlFormat ⟨u.scheme, u.host, [], []⟩ = originOf u := by
      simp [urlFormat, originOf]
    rwa [this] at h0
  have hres : urlResolve (originOf u) (originalUrlOf u) = urlFormat u := by
    rw [urlResolve, hrel, horig]
    rw [urlFormat_eq_origin_append]
    simp [originOf, List.append_assoc]
  have hfwf : UrlWF { u with query := u.query.filter (fun kv => kv.1 ≠ ticketKey) } :=
    ⟨hwf.scheme_ne, hwf.scheme_ok, hwf.host_ne, hwf.host_no_slash, hwf.host_no_q,
     hwf.path_shape, hwf.path_no_q,
     fun kv hkv => hwf.query_wf kv (List.mem_of_mem_filter hkv)⟩
  have hserv : service none (originOf u) (originalUrlOf u) =
      urlFormat { u with query := u.query.filter (fun kv => kv.1 ≠ ticketKey) } := by
    rw [service]
    simp only [hres, urlParse_urlFormat hwf]
  refine ⟨hserv, ?_, ?_⟩
  · rw [hserv]
    exact urlParse_urlFormat hfwf
  · intro hmem
    rcases List.mem_map.mp hmem with ⟨kv, hkv, hfst⟩
    have hne := (List.mem_filter.mp hkv).2
    exact absurd hfst (by simpa using hne)

/-- C7 witness: `http://app.example.com/profile?a=1&ticket=ST-123` becomes
`http://app.example.com/profile?a=1`. -/
theorem c7_witness :
    urlParse (service none (originOf uEx) (originalUrlOf uEx)) =
      some { uEx with query := uEx.query.filter (fun kv => kv.1 ≠ ticketKey) } ∧
    ticketKey ∉ (uEx.query.filter (fun kv => kv.1 ≠ ticketKey)).map Prod.fst ∧
    service none (originOf uEx) (originalUrlOf uEx) =
      "http://app.example.com/profile?a=1".toList := by
  have h := c7_service_removes_ticket uEx
    ⟨by decide, by decide, by decide, by decide, by decide,
     Or.inr ⟨"profile".toList, by decide⟩, by decide, by decide⟩
    ("profile".toList) (by decide) (by decide)
  exact ⟨h.2.1, h.2.2, by decide⟩

/-- C8 (confirmed): construction fails when no verify function is
supplied; it fails whenever the strategy's version —
`options.version || "CAS1.0"` — is neither `CAS1.0` nor `CAS3.0`; and
every successfully constructed strategy has version `CAS1.0` or
`CAS3.0`. -/
theorem c8_construction :
    (∀ o : Options, construct o false =
      Except.error "cas authentication strategy requires a verify function") ∧
    (∀ o : Options, effVersion o ≠ "CAS1.0" → effVersion o ≠ "CAS3.0" →
      exceptOk (construct o true) = false) ∧
    (∀ (o : Options) (st : StrategyState), construct o true = Except.ok st →
      st.version = "CAS1.0" ∨ st.version = "CAS3.0") := by
  refine ⟨fun o => rfl, fun o h1 h2 => ?_, fun o st h => ?_⟩
  · simp only [effVersion] at h1 h2
    cases hs : o.ssoBaseURL with
    | none => simp [construct, hs, exceptOk]
    | some s => simp [construct, hs, h1, h2, exceptOk]
  · cases hs : o.ssoBaseURL with
    | none =>
      rw [construct] at h
      simp [hs] at h
    | some s =>
      rw [construct] at h
      simp only [hs, Bool.not_true] at h
      by_cases h1 : jsOrOpt o.version "CAS1.0" = "CAS1.0"
      · simp only [h1, if_pos, if_true, reduceIte] at h
        left
        have := Except.ok.inj h
        rw [← this]
      · by_cases h2 : jsOrOpt o.version "CAS1.0" = "CAS3.0"
        · simp only [h1, h2, if_neg, if_pos, reduceIte] at h
          right
          have := Except.ok.inj h
          rw [← this]
        · simp [h1, h2] at h

/-- C8 witness: a missing verify function and the unrecognized version
`CAS2.0` both fail; a constructed `CAS3.0` strategy satisfies the version
invariant. -/
theorem c8_witness :
    construct ⟨some "CAS2.0", some "https://sso.example.com/cas", none, none, none,
        false, false⟩ false =
      Except.error "cas authentication strategy requires a verify function" ∧
    exceptOk (construct ⟨some "CAS2.0", some "https://sso.example.com/cas", none, none,
        none, false, false⟩ true) = false ∧
    ((⟨"CAS3.0", "https://sso.example.com/cas", false, "cas", "/p3/serviceValidate",
        false⟩ : StrategyState).version = "CAS1.0" ∨
     (⟨"CAS3.0", "https://sso.example.com/cas", false, "cas", "/p3/serviceValidate",
        false⟩ : StrategyState).version = "CAS3.0") :=
  ⟨c8_construction.1 _,
   c8_construction.2.1 _ (by decide) (by decide),
   c8_construction.2.2
     ⟨some "CAS3.0", some "https://sso.example.com/cas", none, none, none, false, false⟩
     _ rfl⟩

/-- C9 (amended): on a no-ticket request, the produced redirect URL is the
SSO login URL (`ssoBase` plus `/login`) whose query holds `service` set to
the canonical service URL followed by exactly the truthy caller-supplied
login parameters — provided no login parameter is itself named `service`;
a truthy `service` login parameter would overwrite the canonical value,
because the parameter loop runs after `query.service` is assigned. -/
theorem c9_login_redirect (b : UrlC) (hwf : UrlWF b) (hbq : b.query = [])
    (svc : List Char) (lp : List QItem)
    (hnodup : (lp.map Prod.fst).Nodup)
    (hserv : serviceKey ∉ lp.map Prod.fst) :
    loginRedirect (urlFormat b) svc lp =
      some (urlFormat
        { b with
          path := b.path ++ ('/' :: "login".toList),
          query := (serviceKey, svc) :: lp.filter (fun kv => kv.2 ≠ []) }) ∧
    ∀ kv ∈ lp, (kv ∈ (serviceKey, svc) :: lp.filter (fun kv => kv.2 ≠ []) ↔ kv.2 ≠ []) := by
  have hb' : UrlWF
      { b with
        path := b.path ++ ('/' :: "login".toList),
        query := ([] : List QItem) } := by
    refine ⟨hwf.scheme_ne, hwf.scheme_ok, hwf.host_ne, hwf.host_no_slash, hwf.host_no_q,
      ?_, ?_, by simp⟩
    · rcases hwf.path_shape with h0 | ⟨p, hp⟩
      · exact Or.inr ⟨"login".toList, by simp [h0]⟩
      · exact Or.inr ⟨p ++ ('/' :: "login".toList), by simp [hp]⟩
    · intro hm
      rcases List.mem_append.mp hm with hm | hm
      · exact hwf.path_no_q hm
      · exact absurd hm (by decide)
  have hparse : urlParse (urlFormat b ++ ('/' :: "login".toList)) =
      some { b with path := b.path ++ ('/' :: "login".toList), query := [] } := by
    have heq : urlFormat b ++ ('/' :: "login".toList) =
        urlFormat
          { b with
            path := b.path ++ ('/' :: "login".toList),
            query := ([] : List QItem) } := by
      simp [urlFormat, hbq, List.append_assoc]
    rw [heq]
    exact urlParse_urlFormat hb'
  have hfresh : ∀ kv ∈ lp, kv.1 ∉ ([(serviceKey, svc)] : List QItem).map Prod.fst := by
    intro kv hkv hm
    simp only [List.map_cons, List.map_nil, List.mem_singleton] at hm
    exact hserv (hm ▸ List.mem_map_of_mem Prod.fst hkv)
  have hq0 : setKey ([] : List QItem) serviceKey svc = [(serviceKey, svc)] := by
    simp [setKey]
  constructor
  · rw [loginRedirect, hparse]
    simp only
    rw [hq0, foldl_setKey_truthy lp hfresh hnodup]
    rfl
  · intro kv hkv
    constructor
    · intro hmem
      rcases List.mem_cons.mp hmem with heq | hmem'
      · exfalso
        apply hserv
        have : kv.1 = serviceKey := by rw [heq]
        exact this ▸ List.mem_map_of_mem Prod.fst hkv
      · have := (List.mem_filter.mp hmem').2
        simpa using this
    · intro hv
      exact List.mem_cons_of_mem _ (List.mem_filter.mpr ⟨hkv, by simpa using hv⟩)

/-- C9 witness: login params `{renew: "true", foo: ""}` produce a redirect
including `renew=true` and omitting `foo`, with `service` set to the
canonical URL. -/
theorem c9_witness :
    loginRedirect (urlFormat bEx) ("http://app.example.com/x".toList)
        [("renew".toList, "true".toList), ("foo".toList, [])] =
      some (urlFormat
        { bEx with
          path := bEx.path ++ ('/' :: "login".toList),
          query := (serviceKey, "http://app.example.com/x".toList) ::
            [("renew".toList, "true".toList), ("foo".toList, [])].filter
              (fun kv => kv.2 ≠ []) }) ∧
    loginRedirect (urlFormat bEx) ("http://app.example.com/x".toList)
        [("renew".toList, "true".toList), ("foo".toList, [])] =
      some ("http://sso.example.com/cas/login?service=http://app.example.com/x&renew=true".toList) := by
  have h := c9_login_redirect bEx
    ⟨by decide, by decide, by decide, by decide, by decide,
     Or.inr ⟨"cas".toList, by decide⟩, by decide, by decide⟩
    rfl ("http://app.example.com/x".toList)
    [("renew".toList, "true".toList), ("foo".toList, [])]
    (by decide) (by decide)
  exact ⟨h.1, by decide⟩

/-- C9 counterexample: the claim as stated holds for every caller-supplied
login-parameter bag, but a truthy parameter named `service` overwrites the
canonical service URL: the redirect then carries `service=evil` instead of
the canonical `http://app.example.com/x`. -/
theorem c9_counterexample :
    loginRedirect ("http://sso.example.com/cas".toList)
        ("http://app.example.com/x".toList) [(serviceKey, "evil".toList)] =
      some ("http://sso.example.com/cas/login?service=evil".toList) ∧
    ("evil".toList : List Char) ≠ "http://app.example.com/x".toList := by
  exact ⟨by decide, by decide⟩

end PassportCas
